import Mathlib

/-!
Verification development for the step-review workflow of the hackathon backend
(`src/projects/services.py`, `src/projects/repositories.py`,
`src/projects/models.py`, `src/database.py`).

The state of one project row together with its child rows (steps, step
attempts, step files, step comments) is embedded as `DBState`.  Each service
method of `StepService` is translated into a pure function
`DBState → args → Except PyErr α × DBState` returning the Python-level
outcome and the DURABLE database state after the call: a repository call
with `commit=True` applies the pending session writes to the durable
state; flushed-but-never-committed writes are discarded, because
`get_db_session` (src/database.py) closes the session when the request
ends and closing an uncommitted SQLAlchemy session rolls the transaction
back.  Wall-clock instants are integers (seconds, UTC).  String fields that
no claim touches (project name, description, file paths, mime types) are
omitted from the records.
-/

namespace HackathonStepFlow

/-- Status enum from src/projects/constants.py (`ProjectStatus`).  The Python
values are strings; only their identity matters here. -/
inductive ProjectStatus
  | NOT_STARTED
  | IN_PROGRESS
  | SUBMITTED
  | ACCEPTED
  | TIME_EXCEEDED
deriving DecidableEq, Repr

/-- Team row (src/teams/models.py), reduced to what the step services read:
its primary key and the participant ids of its members. -/
structure Team where
  id : Int
  member_participant_ids : List Int
deriving DecidableEq, Repr

/-- Project row (src/projects/models.py `Project`).  `team` is the nullable
1:1 back-reference. -/
structure Project where
  id : Int
  score : Int
  new_submission : Bool
  team : Option Team
deriving DecidableEq, Repr

/-- Step row (src/projects/models.py `Step`).  `timer_minutes` is declared
NOT NULL in the model; it is `Option Int` here because `reject_step` can
assign the Python attribute `None`, which only fails later at flush time. -/
structure Step where
  id : Int
  project_id : Int
  step_number : Int
  text : Option String
  score : Int
  timer_minutes : Option Int
  status : ProjectStatus
deriving DecidableEq, Repr

/-- StepAttempt row (src/projects/models.py `StepAttempt`).  `submitted_at =
none` means the attempt is open. -/
structure StepAttempt where
  step_id : Int
  started_at : Int
  end_time_at : Int
  submitted_at : Option Int
deriving DecidableEq, Repr

/-- StepFile row, reduced to the ids that `submit_step` validates. -/
structure StepFileRec where
  id : Int
  step_id : Int
deriving DecidableEq, Repr

/-- StepComment row plus its attached-file count (`StepCommentFile` rows are
abstracted to their number). -/
structure StepCommentRec where
  step_id : Int
  user_id : Int
  text : String
  num_files : Nat
deriving DecidableEq, Repr

/-- Caller identity as the services read it (src/users/models.py `User`):
mentor flag and, for participants, the related participant id. -/
structure User where
  id : Int
  is_mentor : Bool
  participant_id : Option Int
deriving DecidableEq, Repr

/-- Durable database state of one project aggregate.  `steps` is keyed by
step_number (unique per project in the schema). -/
structure DBState where
  project : Project
  steps : Int → Option Step
  attempts : List StepAttempt
  files : List StepFileRec
  comments : List StepCommentRec
  next_file_id : Int

/-- Python-level failure outcomes.  `http` is the FastAPI `HTTPException`
with its status code and detail; the remaining constructors are the
non-HTTP exceptions the services can raise. -/
inductive PyErr
  | http (code : Nat) (detail : String)
  | integrityError
  | typeError (detail : String)
  | attributeError (detail : String)
  | unboundLocalError (name : String)
  | injected (tag : String)
deriving DecidableEq, Repr

/-- Injected environment failure inside the try block of `submit_step`, used to
model a database or filesystem exception at a given statement. -/
inductive SubmitFault
  | wNone
  | atUpdateStep
  | atDeleteFiles
deriving DecidableEq, Repr

/-- Truthiness of the optional `timer` argument: the Python test `not timer` is
true for `None` and for `0`. -/
def timerFalsy : Option Int → Bool
  | none => true
  | some t => t == 0

/-- Predicate for an open attempt of a step (`submitted_at IS NULL`). -/
def isOpenFor (sid : Int) (a : StepAttempt) : Bool :=
  decide (a.step_id = sid ∧ a.submitted_at = none)

/-- Number of open attempts a step has. -/
def openCount (l : List StepAttempt) (sid : Int) : Nat :=
  l.countP (isOpenFor sid)

/-- First open attempt of a step in the attempts table. -/
def findOpen (l : List StepAttempt) (sid : Int) : Option StepAttempt :=
  l.find? (isOpenFor sid)

/-- Modelled from the spec: `get_open_attempt(step_id) -> Attempt | None`
(StepRepo method called by the services but absent from
src/projects/repositories.py).  Returns the attempt of the step with
`submitted_at IS NULL`, if any. -/
def get_open_attempt (st : DBState) (step_id : Int) : Option StepAttempt :=
  findOpen st.attempts step_id

/-- Fold helper: of two attempts, keep the one submitted later. -/
def laterSubmitted (a b : StepAttempt) : StepAttempt :=
  match a.submitted_at, b.submitted_at with
  | some x, some y => if x ≤ y then b else a
  | _, _ => b

/-- Modelled from the spec: `get_last_submitted_attempt(step_id) ->
Attempt | None` (StepRepo method called by `reject_step` but absent from
src/projects/repositories.py).  Returns the most recently submitted
attempt of the step, none when no attempt has been submitted. -/
def get_last_submitted_attempt (st : DBState) (step_id : Int) : Option StepAttempt :=
  (st.attempts.filter (fun a => a.step_id == step_id && !(a.submitted_at == none))).foldl
    (fun acc a => match acc with
      | none => some a
      | some b => some (laterSubmitted b a))
    none

/-- Close the first open attempt of a step by stamping `submitted_at`
(`open_attempt.submitted_at = now` on the ORM object found by
`get_open_attempt`). -/
def updateFirstOpen (sid now : Int) : List StepAttempt → List StepAttempt
  | [] => []
  | a :: rest =>
    if isOpenFor sid a then { a with submitted_at := some now } :: rest
    else a :: updateFirstOpen sid now rest

/-- Recompute `end_time_at = started_at + timedelta(minutes=timer)` on the
first open attempt of a step (`StepRepo.update_step_attempt_end_time_at`). -/
def updateFirstOpenEnd (sid timer : Int) : List StepAttempt → List StepAttempt
  | [] => []
  | a :: rest =>
    if isOpenFor sid a then { a with end_time_at := a.started_at + 60 * timer } :: rest
    else a :: updateFirstOpenEnd sid timer rest

/-- SQL-style update of the step keyed by (project_id, step_number), as in
`StepRepo.set_step_status` / `StepRepo.update_step`. -/
def updateStepAt (steps : Int → Option Step) (pid n : Int) (f : Step → Step) :
    Int → Option Step :=
  fun m =>
    if m = n then (steps m).map (fun s => if s.project_id = pid then f s else s)
    else steps m

/-- `StepRepo.get_step`: SELECT the step WHERE project_id AND step_number. -/
def get_step (st : DBState) (pid n : Int) : Option Step :=
  match st.steps n with
  | none => none
  | some s => if s.project_id = pid then some s else none

/-- `StepService.get_step_or_404`: fetch the step or fail 404; when a user
is passed and is not a mentor, check team membership through the team of
the project (403 otherwise). -/
def get_step_or_404 (st : DBState) (pid n : Int) (user : Option User) :
    Except PyErr Step :=
  match get_step st pid n with
  | none => .error (.http 404 "Step not found")
  | some s =>
    match user with
    | none => .ok s
    | some u =>
      if u.is_mentor then .ok s
      else
        match st.project.team with
        | none => .error (.http 403 "You are not authorized to access this step")
        | some tm =>
          match u.participant_id with
          | none => .error (.http 403 "You are not authorized to access this step")
          | some p =>
            if p ∈ tm.member_participant_ids then .ok s
            else .error (.http 403 "You are not authorized to access this step")

/-- `StepService._validate_previous_step_completed`. -/
def validate_previous_step_completed (st : DBState) (pid n : Int) :
    Except PyErr Unit :=
  if n ≤ 1 then .ok ()
  else
    match get_step st pid (n - 1) with
    | none => .error (.http 404 "Previous step not found")
    | some prev =>
      if prev.status ≠ ProjectStatus.ACCEPTED then
        .error (.http 409 "Cannot start the new step until the previous step is finished")
      else .ok ()

/-- `StepService.start_step`: validate sequencing, team and status, create
an open attempt ending `timer_minutes` minutes from now, set the step
IN_PROGRESS, commit, and re-fetch the step. -/
def start_step (st : DBState) (pid n user_team_id now : Int) :
    Except PyErr Step × DBState :=
  match validate_previous_step_completed st pid n with
  | .error e => (.error e, st)
  | .ok _ =>
    match get_step_or_404 st pid n none with
    | .error e => (.error e, st)
    | .ok s =>
      match st.project.team with
      | none => (.error (.http 404 "Team for this project is not found"), st)
      | some tm =>
        if user_team_id ≠ tm.id then
          (.error (.http 403 "You are not authorized to access this step"), st)
        else if s.status ≠ ProjectStatus.NOT_STARTED then
          (.error (.http 409 "Step is already started"), st)
        else
          match s.timer_minutes with
          | none => (.error (.typeError "unsupported type for timedelta minutes component"), st)
          | some m =>
            let st2 : DBState :=
              { st with
                attempts := st.attempts ++
                  [{ step_id := s.id, started_at := now,
                     end_time_at := now + 60 * m, submitted_at := none }],
                steps := updateStepAt st.steps pid n
                  (fun q => { q with status := ProjectStatus.IN_PROGRESS }) }
            match get_step_or_404 st2 pid n none with
            | .error e => (.error e, st2)
            | .ok s2 => (.ok s2, st2)

/-- `StepService.set_step_timer`: write `timer_minutes` (committing only if
the step is not IN_PROGRESS); when IN_PROGRESS, look for the open attempt:
if none, return early WITHOUT committing, so the flushed timer write is
rolled back when the request session closes; if found, recompute its
end time and commit everything. -/
def set_step_timer (st : DBState) (pid n timer : Int) :
    Except PyErr Step × DBState :=
  match get_step_or_404 st pid n none with
  | .error e => (.error e, st)
  | .ok s =>
    if s.status = ProjectStatus.IN_PROGRESS then
      match get_open_attempt st s.id with
      | none => (.ok { s with timer_minutes := some timer }, st)
      | some _ =>
        (.ok { s with timer_minutes := some timer },
         { st with
           steps := updateStepAt st.steps pid n
             (fun q => { q with timer_minutes := some timer }),
           attempts := updateFirstOpenEnd s.id timer st.attempts })
    else
      (.ok { s with timer_minutes := some timer },
       { st with
         steps := updateStepAt st.steps pid n
           (fun q => { q with timer_minutes := some timer }) })

/-- `StepService.submit_step`.  The team check dereferences
`step.project.team.id` without a null check; the status must be
IN_PROGRESS; an open attempt must exist; requested file removals are
validated against the files of the step.  Inside the try block the local
`files_to_create` is only assigned by the upload call, so any exception
raised before that assignment completes makes the handler read of
`files_to_create` raise UnboundLocalError in place of the original
exception.  On success everything is committed at `set_new_submission`. -/
def submit_step (st : DBState) (pid n : Int) (text : String) (add_files : Nat)
    (remove_file_ids : List Int) (user_team_id now : Int) (fault : SubmitFault) :
    Except PyErr Step × DBState :=
  match get_step_or_404 st pid n none with
  | .error e => (.error e, st)
  | .ok s =>
    match st.project.team with
    | none => (.error (.attributeError "NoneType object has no attribute id"), st)
    | some tm =>
      if user_team_id ≠ tm.id then
        (.error (.http 403 "You are not authorized to access this step"), st)
      else if s.status ≠ ProjectStatus.IN_PROGRESS then
        (.error (.http 409 "Cannot submit step. First, start the step"), st)
      else
        match get_open_attempt st s.id with
        | none => (.error (.http 409 "No active attempt to submit"), st)
        | some a =>
          if (remove_file_ids.filter (fun fid =>
                !((st.files.filter (fun f => f.step_id == s.id)).any
                  (fun f => f.id == fid)))) ≠ [] then
            (.error (.http 400 "Some files do not belong to this step"), st)
          else if fault = SubmitFault.atUpdateStep then
            (.error (.unboundLocalError "files_to_create"), st)
          else if fault = SubmitFault.atDeleteFiles ∧ remove_file_ids ≠ [] then
            (.error (.unboundLocalError "files_to_create"), st)
          else if add_files > 10 then
            (.error (.unboundLocalError "files_to_create"), st)
          else
            let newStatus :=
              if a.end_time_at < now then ProjectStatus.TIME_EXCEEDED
              else ProjectStatus.SUBMITTED
            (.ok { s with text := some text, status := newStatus },
             { st with
               steps := updateStepAt st.steps pid n
                 (fun q => { q with text := some text, status := newStatus }),
               attempts := updateFirstOpen s.id now st.attempts,
               files := st.files.filter
                   (fun f => !(f.step_id == s.id && remove_file_ids.contains f.id)) ++
                 (List.range add_files).map
                   (fun i => { id := st.next_file_id + i, step_id := s.id }),
               next_file_id := st.next_file_id + add_files,
               project := { st.project with new_submission := true } })

/-- `StepService.accept_step`: only from SUBMITTED or TIME_EXCEEDED; sets
the score and status ACCEPTED on the step and clears `new_submission`.  The
aggregate `score` column of the project is not touched. -/
def accept_step (st : DBState) (pid n score : Int) :
    Except PyErr Step × DBState :=
  match get_step_or_404 st pid n none with
  | .error e => (.error e, st)
  | .ok s =>
    if s.status ≠ ProjectStatus.SUBMITTED ∧ s.status ≠ ProjectStatus.TIME_EXCEEDED then
      (.error (.http 409 "Step has not been submitted"), st)
    else
      (.ok { s with score := score, status := ProjectStatus.ACCEPTED },
       { st with
         steps := updateStepAt st.steps pid n
           (fun q => { q with score := score, status := ProjectStatus.ACCEPTED }),
         project := { st.project with new_submission := false } })

/-- The Python built-in `round` applied to the exact rational num/den (den
positive): round half to even.  Timestamps in this model are whole seconds,
and for whole-second deltas of realistic magnitude the float expression
`round(delta.total_seconds() / 60.0)` in `reject_step` equals this exact
rounding, since `n / 60.0` can only land on a representable tie (k + 0.5,
when n is an odd multiple of 30) or strictly inside a unit interval. -/
def pythonRound (num den : Int) : Int :=
  let q := num.fdiv den
  let r := num - den * q
  if 2 * r < den then q
  else if den < 2 * r then q + 1
  else if q % 2 = 0 then q else q + 1

/-- `StepService.reject_step`: only from SUBMITTED or TIME_EXCEEDED.  When
`not timer` and the status is SUBMITTED, infer the timer from the last
submitted attempt as `max(1, round(delta.total_seconds() / 60.0))`;
otherwise the data dict carries the given timer as-is, so a missing timer
on a TIME_EXCEEDED step writes `timer_minutes = None`, which violates the
NOT NULL constraint of the column when `update_step` flushes (IntegrityError
before any commit). -/
def reject_step (st : DBState) (pid n : Int) (timer : Option Int) :
    Except PyErr Step × DBState :=
  match get_step_or_404 st pid n none with
  | .error e => (.error e, st)
  | .ok s =>
    if s.status ≠ ProjectStatus.SUBMITTED ∧ s.status ≠ ProjectStatus.TIME_EXCEEDED then
      (.error (.http 409 "Step has not been submitted"), st)
    else
      let resolved : Except PyErr Int :=
        if timerFalsy timer ∧ s.status = ProjectStatus.SUBMITTED then
          match get_last_submitted_attempt st s.id with
          | none =>
            .error (.http 409 "No submitted attempt found to infer timer. Provide a new timer value.")
          | some a =>
            match a.submitted_at with
            | none =>
              .error (.http 409 "No submitted attempt found to infer timer. Provide a new timer value.")
            | some sub =>
              .ok (max 1 (pythonRound (a.end_time_at - sub) 60))
        else
          match timer with
          | none => .error .integrityError
          | some t => .ok t
      match resolved with
      | .error e => (.error e, st)
      | .ok t =>
        (.ok { s with timer_minutes := some t, status := ProjectStatus.NOT_STARTED },
         { st with
           steps := updateStepAt st.steps pid n
             (fun q => { q with timer_minutes := some t,
                                status := ProjectStatus.NOT_STARTED }),
           project := { st.project with new_submission := false } })

/-- `StepService.create_comment`: membership-checked fetch, Conflict when
the step has not been started, hard cap of 5 files, then the comment (and
its files) is created and committed.  Filesystem upload success is
abstracted (uploads of ≤ 5 files succeed). -/
def create_comment (st : DBState) (pid n : Int) (text : String)
    (files_count : Nat) (user : User) : Except PyErr StepCommentRec × DBState :=
  match get_step_or_404 st pid n (some user) with
  | .error e => (.error e, st)
  | .ok s =>
    if s.status = ProjectStatus.NOT_STARTED then
      (.error (.http 409 "Step has not been started"), st)
    else if files_count > 5 then
      (.error (.http 400 "Too many files to send. Maximum is 5"), st)
    else
      let c : StepCommentRec :=
        { step_id := s.id, user_id := user.id, text := text, num_files := files_count }
      (.ok c, { st with comments := st.comments ++ [c] })

/-- One workflow operation, with its wall-clock instant and caller facts. -/
inductive Op
  | opStart (pid n team_id now : Int)
  | opSetTimer (pid n timer : Int)
  | opSubmit (pid n : Int) (text : String) (add_files : Nat)
      (remove_file_ids : List Int) (team_id now : Int) (fault : SubmitFault)
  | opAccept (pid n score : Int)
  | opReject (pid n : Int) (timer : Option Int)
  | opCreateComment (pid n : Int) (text : String) (files_count : Nat) (user : User)

/-- Durable state after running one operation. -/
def applyOp (st : DBState) : Op → DBState
  | .opStart pid n tid now => (start_step st pid n tid now).2
  | .opSetTimer pid n timer => (set_step_timer st pid n timer).2
  | .opSubmit pid n text af rm tid now fault =>
      (submit_step st pid n text af rm tid now fault).2
  | .opAccept pid n score => (accept_step st pid n score).2
  | .opReject pid n timer => (reject_step st pid n timer).2
  | .opCreateComment pid n text fc user => (create_comment st pid n text fc user).2

/-- A fresh step as `ProjectRepo.create` makes it: defaults score 0,
timer_minutes 30, status NOT_STARTED; ids are taken equal to the step
number (they are autoincrement-unique in the schema). -/
def initStep (pid n : Int) : Step :=
  { id := n, project_id := pid, step_number := n, text := none,
    score := 0, timer_minutes := some 30, status := ProjectStatus.NOT_STARTED }

/-- Durable state right after `ProjectRepo.create`: the project row with
score 0 and `new_submission` false, its 15 steps, and no child rows. -/
def initState (pid : Int) (team : Option Team) : DBState :=
  { project := { id := pid, score := 0, new_submission := false, team := team },
    steps := fun n => if 1 ≤ n ∧ n ≤ 15 then some (initStep pid n) else none,
    attempts := [], files := [], comments := [], next_file_id := 1 }

/-- States reachable from project creation by the step-workflow services. -/
inductive Reachable : DBState → Prop
  | init (pid : Int) (team : Option Team) : Reachable (initState pid team)
  | next {st : DBState} (op : Op) : Reachable st → Reachable (applyOp st op)

/-- Sum of the scores of the steps of the project (steps are keyed 1..15). -/
def stepScoresSum (st : DBState) : Int :=
  ((List.range 15).map (fun i =>
    match st.steps ((i : Int) + 1) with
    | some s => s.score
    | none => 0)).sum

/-- Written from the words of the spec for claim C2: rounding num/den (den
positive) with ties half away from zero, to be compared against the
`pythonRound` of the code. -/
def roundHalfAwayFromZero (num den : Int) : Int :=
  if 0 ≤ num then (2 * num + den).fdiv (2 * den)
  else -((2 * -num + den).fdiv (2 * den))

/-- The open-attempt bookkeeping invariant of reachable states: a step has
exactly one open attempt while IN_PROGRESS and none otherwise, and distinct
step keys hold distinct step ids. -/
def Inv (st : DBState) : Prop :=
  (∀ n s, st.steps n = some s →
    openCount st.attempts s.id =
      if s.status = ProjectStatus.IN_PROGRESS then 1 else 0) ∧
  (∀ n m s t, st.steps n = some s → st.steps m = some t → s.id = t.id → n = m)

/-- Concrete team used by the concrete traces below. -/
def teamA : Team := { id := 7, member_participant_ids := [21] }

/-- Concrete mentor caller. -/
def mentorU : User := { id := 99, is_mentor := true, participant_id := none }

/-- Fresh project 1 owned by `teamA`. -/
def stInit : DBState := initState 1 (some teamA)

/-- After starting step 1 at t = 0 (attempt deadline t = 1800). -/
def stStarted : DBState := (start_step stInit 1 1 7 0).2

/-- After submitting step 1 at t = 10 (before the deadline: SUBMITTED). -/
def stSub10 : DBState := (submit_step stStarted 1 1 "answer" 0 [] 7 10 SubmitFault.wNone).2

/-- After accepting step 1 with score 5. -/
def stAcc5 : DBState := (accept_step stSub10 1 1 5).2

/-- After submitting step 1 at t = 2000 (past the deadline: TIME_EXCEEDED). -/
def stLate : DBState := (submit_step stStarted 1 1 "late" 0 [] 7 2000 SubmitFault.wNone).2

/-- After submitting step 1 at t = 1650: the submitted attempt has
end_time_at − submitted_at = 150 seconds. -/
def stSub150 : DBState := (submit_step stStarted 1 1 "x" 0 [] 7 1650 SubmitFault.wNone).2

/-- After submitting step 1 at t = 1710: the submitted attempt has
end_time_at − submitted_at = 90 seconds. -/
def stSub90 : DBState := (submit_step stStarted 1 1 "x" 0 [] 7 1710 SubmitFault.wNone).2

/-- A state whose step 1 is IN_PROGRESS while the attempts table has no open
attempt for it (legacy/out-of-band data; `set_step_timer` has an explicit
branch for it). -/
def stNoOpen : DBState :=
  { project := { id := 1, score := 0, new_submission := false, team := some teamA },
    steps := fun n =>
      if n = 1 then
        some { id := 1, project_id := 1, step_number := 1, text := some "t",
               score := 0, timer_minutes := some 30,
               status := ProjectStatus.IN_PROGRESS }
      else none,
    attempts := [], files := [], comments := [], next_file_id := 1 }

/-- A project with no team, its step 1 IN_PROGRESS with an open attempt. -/
def stNoTeam : DBState :=
  { project := { id := 1, score := 0, new_submission := false, team := none },
    steps := fun n =>
      if n = 1 then
        some { id := 1, project_id := 1, step_number := 1, text := none,
               score := 0, timer_minutes := some 30,
               status := ProjectStatus.IN_PROGRESS }
      else none,
    attempts := [{ step_id := 1, started_at := 0, end_time_at := 1800, submitted_at := none }],
    files := [], comments := [], next_file_id := 1 }

theorem get_step_some {st : DBState} {pid n : Int} {s : Step}
    (h : get_step st pid n = some s) :
    st.steps n = some s ∧ s.project_id = pid := by
  unfold get_step at h
  split at h
  · exact absurd h (by simp)
  next u hu =>
    split at h
    next hp =>
      cases h
      exact ⟨hu, hp⟩
    · exact absurd h (by simp)

theorem get_step_of_steps {st : DBState} {pid n : Int} {s : Step}
    (h1 : st.steps n = some s) (h2 : s.project_id = pid) :
    get_step st pid n = some s := by
  unfold get_step
  rw [h1]
  simp only [h2, if_true]

theorem get_step_or_404_anon {st : DBState} {pid n : Int} {s : Step} :
    get_step_or_404 st pid n none = .ok s ↔ get_step st pid n = some s := by
  unfold get_step_or_404
  cases h : get_step st pid n <;> simp

theorem updateStepAt_self {steps : Int → Option Step} {pid n : Int} {f : Step → Step} :
    updateStepAt steps pid n f n =
      (steps n).map (fun s => if s.project_id = pid then f s else s) := by
  simp [updateStepAt]

theorem updateStepAt_other {steps : Int → Option Step} {pid n m : Int} {f : Step → Step}
    (h : m ≠ n) : updateStepAt steps pid n f m = steps m := by
  simp [updateStepAt, h]

theorem updateStepAt_some {steps : Int → Option Step} {pid n m : Int} {f : Step → Step}
    {t : Step} (h : updateStepAt steps pid n f m = some t) :
    (m ≠ n ∧ steps m = some t) ∨
    (m = n ∧ ∃ s, steps n = some s ∧
      ((s.project_id = pid ∧ t = f s) ∨ (s.project_id ≠ pid ∧ t = s))) := by
  by_cases hm : m = n
  · subst hm
    rw [updateStepAt_self] at h
    cases hs : steps m with
    | none => rw [hs] at h; exact absurd h (by simp)
    | some u =>
      rw [hs] at h
      have h' : (if u.project_id = pid then f u else u) = t := by
        simpa using h
      right
      refine ⟨rfl, u, rfl, ?_⟩
      by_cases hp : u.project_id = pid
      · rw [if_pos hp] at h'
        exact Or.inl ⟨hp, h'.symm⟩
      · rw [if_neg hp] at h'
        exact Or.inr ⟨hp, h'.symm⟩
  · rw [updateStepAt_other hm] at h
    exact Or.inl ⟨hm, h⟩

theorem openCount_nil {sid : Int} : openCount [] sid = 0 := rfl

theorem openCount_append {l₁ l₂ : List StepAttempt} {sid : Int} :
    openCount (l₁ ++ l₂) sid = openCount l₁ sid + openCount l₂ sid :=
  List.countP_append _ _ _

theorem openCount_single_open {sid started ended : Int} :
    openCount [{ step_id := sid, started_at := started, end_time_at := ended,
                 submitted_at := none }] sid = 1 := by
  simp [openCount, List.countP, List.countP.go, isOpenFor]

theorem openCount_single_other {sid sid2 started ended : Int} (h : sid2 ≠ sid) :
    openCount [{ step_id := sid, started_at := started, end_time_at := ended,
                 submitted_at := none }] sid2 = 0 := by
  simp [openCount, List.countP, List.countP.go, isOpenFor, Ne.symm h]

theorem openCount_updateFirstOpen_self {l : List StepAttempt} {sid now : Int} :
    openCount (updateFirstOpen sid now l) sid = openCount l sid - 1 := by
  induction l with
  | nil => simp [updateFirstOpen, openCount_nil]
  | cons a rest ih =>
    by_cases ha : isOpenFor sid a
    · have h1 : isOpenFor sid { a with submitted_at := some now } = false := by
        simp [isOpenFor]
      simp [updateFirstOpen, ha, openCount, List.countP_cons, h1]
    · have h2 : isOpenFor sid a = false := by
        simpa using ha
      simp only [updateFirstOpen, if_neg ha]
      simp only [openCount, List.countP_cons, h2] at ih ⊢
      simp
      omega

theorem openCount_updateFirstOpen_other {l : List StepAttempt} {sid sid2 now : Int}
    (h : sid2 ≠ sid) :
    openCount (updateFirstOpen sid now l) sid2 = openCount l sid2 := by
  induction l with
  | nil => simp [updateFirstOpen]
  | cons a rest ih =>
    by_cases ha : isOpenFor sid a
    · simp only [updateFirstOpen, if_pos ha, openCount, List.countP_cons]
      have hstep : a.step_id = sid := by
        simp [isOpenFor] at ha
        exact ha.1
      have h1 : isOpenFor sid2 { a with submitted_at := some now } = false := by
        simp [isOpenFor, hstep, Ne.symm h]
      have h2 : isOpenFor sid2 a = false := by
        simp [isOpenFor, hstep, Ne.symm h]
      simp [h1, h2]
    · simp only [updateFirstOpen, if_neg ha, openCount, List.countP_cons]
      have := ih
      simp only [openCount] at this
      rw [this]

theorem openCount_updateFirstOpenEnd {l : List StepAttempt} {sid sid2 t : Int} :
    openCount (updateFirstOpenEnd sid t l) sid2 = openCount l sid2 := by
  induction l with
  | nil => simp [updateFirstOpenEnd]
  | cons a rest ih =>
    by_cases ha : isOpenFor sid a
    · simp only [updateFirstOpenEnd, if_pos ha, openCount, List.countP_cons]
      have : isOpenFor sid2 { a with end_time_at := a.started_at + 60 * t } =
          isOpenFor sid2 a := by
        simp [isOpenFor]
      simp [this]
    · simp only [updateFirstOpenEnd, if_neg ha, openCount, List.countP_cons]
      have := ih
      simp only [openCount] at this
      rw [this]

theorem findOpen_mem_updateFirstOpen {l : List StepAttempt} {sid now : Int}
    {a : StepAttempt} (h : findOpen l sid = some a) :
    { a with submitted_at := some now } ∈ updateFirstOpen sid now l := by
  induction l with
  | nil => simp [findOpen] at h
  | cons b rest ih =>
    by_cases hb : isOpenFor sid b
    · have : b = a := by
        simp only [findOpen, List.find?] at h
        rw [hb] at h
        cases h
        rfl
      subst this
      simp [updateFirstOpen, hb]
    · have hrest : findOpen rest sid = some a := by
        simp only [findOpen, List.find?] at h
        rw [Bool.of_not_eq_true hb] at h
        exact h
      simp only [updateFirstOpen, if_neg hb]
      exact List.mem_cons_of_mem _ (ih hrest)

theorem findOpen_updateFirstOpenEnd {l : List StepAttempt} {sid t : Int}
    {a : StepAttempt} (h : findOpen l sid = some a) :
    findOpen (updateFirstOpenEnd sid t l) sid =
      some { a with end_time_at := a.started_at + 60 * t } := by
  induction l with
  | nil => simp [findOpen] at h
  | cons b rest ih =>
    by_cases hb : isOpenFor sid b
    · have hba : b = a := by
        simp only [findOpen, List.find?] at h
        rw [hb] at h
        cases h
        rfl
      subst hba
      have hopen : isOpenFor sid { b with end_time_at := b.started_at + 60 * t } = true := by
        simp only [isOpenFor, decide_eq_true_eq] at hb ⊢
        exact hb
      simp only [updateFirstOpenEnd, if_pos hb, findOpen, List.find?, hopen]
    · have hrest : findOpen rest sid = some a := by
        simp only [findOpen, List.find?] at h
        rw [Bool.of_not_eq_true hb] at h
        exact h
      simp only [updateFirstOpenEnd, if_neg hb, findOpen, List.find?,
        Bool.of_not_eq_true hb]
      exact ih hrest

theorem start_step_state (st : DBState) (pid n tid now : Int) :
    (start_step st pid n tid now).2 = st ∨
    ∃ s m, get_step st pid n = some s ∧ s.status = ProjectStatus.NOT_STARTED ∧
      s.timer_minutes = some m ∧
      (start_step st pid n tid now).2 =
        { st with
          attempts := st.attempts ++
            [{ step_id := s.id, started_at := now,
               end_time_at := now + 60 * m, submitted_at := none }],
          steps := updateStepAt st.steps pid n
            (fun q => { q with status := ProjectStatus.IN_PROGRESS }) } := by
  unfold start_step
  split
  · exact Or.inl rfl
  · split
    · exact Or.inl rfl
    next s hs =>
      split
      · exact Or.inl rfl
      next tm htm =>
        split
        · exact Or.inl rfl
        · split
          · exact Or.inl rfl
          next hstat =>
            split
            · exact Or.inl rfl
            next m hm =>
              have hgs : get_step st pid n = some s := get_step_or_404_anon.mp hs
              have hns : s.status = ProjectStatus.NOT_STARTED := not_ne_iff.mp hstat
              refine Or.inr ⟨s, m, hgs, hns, hm, ?_⟩
              dsimp only
              split <;> rfl

theorem validate_ok_of_prev {st : DBState} {pid n : Int}
    (h : validate_previous_step_completed st pid n = .ok ()) (hn : ¬ n ≤ 1) :
    ∃ p, get_step st pid (n - 1) = some p ∧ p.status = ProjectStatus.ACCEPTED := by
  unfold validate_previous_step_completed at h
  rw [if_neg hn] at h
  split at h
  · exact absurd h (by simp)
  next p hp =>
    split at h
    · exact absurd h (by simp)
    next hacc =>
      exact ⟨p, hp, not_ne_iff.mp hacc⟩

theorem start_step_ok {st : DBState} {pid n tid now : Int} {r : Step}
    (h : (start_step st pid n tid now).1 = .ok r) :
    validate_previous_step_completed st pid n = .ok () ∧
    ∃ s m tm, get_step st pid n = some s ∧ st.project.team = some tm ∧ tid = tm.id ∧
      s.status = ProjectStatus.NOT_STARTED ∧ s.timer_minutes = some m ∧
      (start_step st pid n tid now).2 =
        { st with
          attempts := st.attempts ++
            [{ step_id := s.id, started_at := now,
               end_time_at := now + 60 * m, submitted_at := none }],
          steps := updateStepAt st.steps pid n
            (fun q => { q with status := ProjectStatus.IN_PROGRESS }) } := by
  unfold start_step at h
  split at h
  · exact absurd h (by simp)
  next u hval =>
    split at h
    · exact absurd h (by simp)
    next s hs =>
      split at h
      · exact absurd h (by simp)
      next tm htm =>
        split at h
        · exact absurd h (by simp)
        next hteam =>
          split at h
          · exact absurd h (by simp)
          next hstat =>
            split at h
            · exact absurd h (by simp)
            next m hm =>
              have hgs : get_step st pid n = some s := get_step_or_404_anon.mp hs
              have hns : s.status = ProjectStatus.NOT_STARTED := not_ne_iff.mp hstat
              have htid : tid = tm.id := not_ne_iff.mp hteam
              have hval2 : validate_previous_step_completed st pid n = Except.ok () := by
                cases u; exact hval
              refine ⟨hval2, s, m, tm, hgs, htm, htid, hns, hm, ?_⟩
              unfold start_step
              rw [hval2]
              dsimp only
              rw [hs]
              dsimp only
              rw [htm]
              dsimp only
              rw [if_neg hteam, if_neg hstat]
              rw [hm]
              dsimp only
              split <;> rfl

theorem set_step_timer_state (st : DBState) (pid n timer : Int) :
    (set_step_timer st pid n timer).2 = st ∨
    ∃ s, get_step st pid n = some s ∧
      ((set_step_timer st pid n timer).2 =
          { st with
            steps := updateStepAt st.steps pid n
              (fun q => { q with timer_minutes := some timer }) } ∨
       (set_step_timer st pid n timer).2 =
          { st with
            steps := updateStepAt st.steps pid n
              (fun q => { q with timer_minutes := some timer }),
            attempts := updateFirstOpenEnd s.id timer st.attempts }) := by
  unfold set_step_timer
  split
  · exact Or.inl rfl
  next s hs =>
    split
    · split
      · exact Or.inl rfl
      · exact Or.inr ⟨s, get_step_or_404_anon.mp hs, Or.inr rfl⟩
    · exact Or.inr ⟨s, get_step_or_404_anon.mp hs, Or.inl rfl⟩

theorem accept_step_state (st : DBState) (pid n score : Int) :
    (accept_step st pid n score).2 = st ∨
    ∃ s, get_step st pid n = some s ∧
      (s.status = ProjectStatus.SUBMITTED ∨ s.status = ProjectStatus.TIME_EXCEEDED) ∧
      (accept_step st pid n score).2 =
        { st with
          steps := updateStepAt st.steps pid n
            (fun q => { q with score := score, status := ProjectStatus.ACCEPTED }),
          project := { st.project with new_submission := false } } := by
  unfold accept_step
  split
  · exact Or.inl rfl
  next s hs =>
    split
    · exact Or.inl rfl
    next hstat =>
      rcases not_and_or.mp hstat with h1 | h1
      · exact Or.inr ⟨s, get_step_or_404_anon.mp hs, Or.inl (not_ne_iff.mp h1), rfl⟩
      · exact Or.inr ⟨s, get_step_or_404_anon.mp hs, Or.inr (not_ne_iff.mp h1), rfl⟩

theorem reject_step_state (st : DBState) (pid n : Int) (timer : Option Int) :
    (reject_step st pid n timer).2 = st ∨
    ∃ s t, get_step st pid n = some s ∧
      (s.status = ProjectStatus.SUBMITTED ∨ s.status = ProjectStatus.TIME_EXCEEDED) ∧
      (reject_step st pid n timer).2 =
        { st with
          steps := updateStepAt st.steps pid n
            (fun q => { q with timer_minutes := some t,
                               status := ProjectStatus.NOT_STARTED }),
          project := { st.project with new_submission := false } } := by
  unfold reject_step
  split
  · exact Or.inl rfl
  next s hs =>
    split
    · exact Or.inl rfl
    next hstat =>
      dsimp only
      split
      · exact Or.inl rfl
      next t hres =>
        rcases not_and_or.mp hstat with h1 | h1
        · exact Or.inr ⟨s, t, get_step_or_404_anon.mp hs, Or.inl (not_ne_iff.mp h1), rfl⟩
        · exact Or.inr ⟨s, t, get_step_or_404_anon.mp hs, Or.inr (not_ne_iff.mp h1), rfl⟩

theorem create_comment_state (st : DBState) (pid n : Int) (text : String)
    (fc : Nat) (user : User) :
    (create_comment st pid n text fc user).2 = st ∨
    ∃ c, (create_comment st pid n text fc user).2 =
      { st with comments := st.comments ++ [c] } := by
  unfold create_comment
  split
  · exact Or.inl rfl
  next s hs =>
    split
    · exact Or.inl rfl
    · split
      · exact Or.inl rfl
      · exact Or.inr ⟨_, rfl⟩

theorem submit_step_state (st : DBState) (pid n : Int) (text : String) (af : Nat)
    (rm : List Int) (tid now : Int) (fault : SubmitFault) :
    (submit_step st pid n text af rm tid now fault).2 = st ∨
    ∃ s a, get_step st pid n = some s ∧ s.status = ProjectStatus.IN_PROGRESS ∧
      get_open_attempt st s.id = some a ∧
      (submit_step st pid n text af rm tid now fault).2 =
        { st with
          steps := updateStepAt st.steps pid n
            (fun q =>
              { q with
                text := some text,
                status := if a.end_time_at < now then ProjectStatus.TIME_EXCEEDED
                  else ProjectStatus.SUBMITTED }),
          attempts := updateFirstOpen s.id now st.attempts,
          files := st.files.filter
              (fun f => !(f.step_id == s.id && rm.contains f.id)) ++
            (List.range af).map
              (fun i => { id := st.next_file_id + i, step_id := s.id }),
          next_file_id := st.next_file_id + af,
          project := { st.project with new_submission := true } } := by
  unfold submit_step
  split
  · exact Or.inl rfl
  next s hs =>
    split
    · exact Or.inl rfl
    next tm htm =>
      split
      · exact Or.inl rfl
      · split
        · exact Or.inl rfl
        next hstat =>
          split
          · exact Or.inl rfl
          next a ha =>
            split
            · exact Or.inl rfl
            · split
              · exact Or.inl rfl
              · split
                · exact Or.inl rfl
                · split
                  · exact Or.inl rfl
                  · refine Or.inr ⟨s, a, get_step_or_404_anon.mp hs,
                      not_ne_iff.mp hstat, ha, ?_⟩
                    dsimp only

theorem updateStepAt_some_id {steps : Int → Option Step} {pid n m : Int}
    {f : Step → Step} {t : Step} (h : updateStepAt steps pid n f m = some t)
    (hf : ∀ s : Step, (f s).id = s.id) :
    ∃ u, steps m = some u ∧ t.id = u.id := by
  rcases updateStepAt_some h with ⟨_, hm⟩ | ⟨hmn, u, hu, hcase⟩
  · exact ⟨t, hm, rfl⟩
  · subst hmn
    rcases hcase with ⟨_, ht⟩ | ⟨_, ht⟩
    · exact ⟨u, hu, by rw [ht, hf]⟩
    · exact ⟨u, hu, by rw [ht]⟩

theorem inv_unchanged {st st2 : DBState} (h : Inv st) (hsteps : st2.steps = st.steps)
    (hatts : st2.attempts = st.attempts) : Inv st2 := by
  constructor
  · intro n s hns
    rw [hsteps] at hns
    rw [hatts]
    exact h.1 n s hns
  · intro n m s t hn hm hid
    rw [hsteps] at hn hm
    exact h.2 n m s t hn hm hid

theorem inv_start {st : DBState} (pid n tid now : Int) (h : Inv st) :
    Inv (start_step st pid n tid now).2 := by
  rcases start_step_state st pid n tid now with he | ⟨s, m, hgs, hstat, _, he⟩
  · rw [he]; exact h
  · obtain ⟨hsteps, hpid⟩ := get_step_some hgs
    rw [he]
    constructor
    · intro k t ht
      dsimp only at ht ⊢
      rcases updateStepAt_some ht with ⟨hkn, hk⟩ | ⟨hkn, u, hu, hcase⟩
      · have hcount := h.1 k t hk
        have hne : t.id ≠ s.id := fun hid => hkn (h.2 k n t s hk hsteps hid)
        rw [openCount_append, openCount_single_other hne, Nat.add_zero]
        exact hcount
      · subst hkn
        have hus : u = s := by
          rw [hsteps] at hu
          injection hu with h1
          exact h1.symm
        subst hus
        rcases hcase with ⟨_, htf⟩ | ⟨hnp, _⟩
        · subst htf
          have h0 := h.1 k u hsteps
          rw [hstat] at h0
          simp only [reduceCtorEq, if_false] at h0
          simp [openCount_append, openCount_single_open, h0]
        · exact absurd hpid hnp
    · intro k l s1 t1 hk hl hid
      dsimp only at hk hl
      obtain ⟨u1, hu1, hid1⟩ := updateStepAt_some_id hk (fun q => rfl)
      obtain ⟨u2, hu2, hid2⟩ := updateStepAt_some_id hl (fun q => rfl)
      exact h.2 k l u1 u2 hu1 hu2 (by rw [← hid1, ← hid2, hid])

theorem inv_set_timer {st : DBState} (pid n timer : Int) (h : Inv st) :
    Inv (set_step_timer st pid n timer).2 := by
  rcases set_step_timer_state st pid n timer with he | ⟨s, hgs, he | he⟩ <;>
    [skip; rw [he]; rw [he]]
  · rw [he]; exact h
  all_goals {
    constructor
    · intro k t ht
      dsimp only at ht ⊢
      rcases updateStepAt_some ht with ⟨_, hk⟩ | ⟨hkn, u, hu, hcase⟩
      · have hcount := h.1 k t hk
        first
        | exact hcount
        | (rw [openCount_updateFirstOpenEnd]; exact hcount)
      · subst hkn
        have hcount := h.1 k u hu
        have hstat2 : ∀ v : Step, v = { u with timer_minutes := some timer } ∨ v = u →
            v.id = u.id ∧ v.status = u.status := by
          rintro v (rfl | rfl) <;> exact ⟨rfl, rfl⟩
        rcases hcase with ⟨_, htf⟩ | ⟨_, htf⟩ <;>
          obtain ⟨hidq, hstq⟩ := hstat2 t (by simp [htf]) <;>
          rw [hidq, hstq] <;>
          first
          | exact hcount
          | (rw [openCount_updateFirstOpenEnd]; exact hcount)
    · intro k l s1 t1 hk hl hid
      dsimp only at hk hl
      obtain ⟨u1, hu1, hid1⟩ := updateStepAt_some_id hk (fun q => rfl)
      obtain ⟨u2, hu2, hid2⟩ := updateStepAt_some_id hl (fun q => rfl)
      exact h.2 k l u1 u2 hu1 hu2 (by rw [← hid1, ← hid2, hid])
  }

theorem inv_submit {st : DBState} (pid n : Int) (text : String) (af : Nat)
    (rm : List Int) (tid now : Int) (fault : SubmitFault) (h : Inv st) :
    Inv (submit_step st pid n text af rm tid now fault).2 := by
  rcases submit_step_state st pid n text af rm tid now fault with
    he | ⟨s, a, hgs, hstat, _, he⟩
  · rw [he]; exact h
  · obtain ⟨hsteps, hpid⟩ := get_step_some hgs
    rw [he]
    constructor
    · intro k t ht
      dsimp only at ht ⊢
      rcases updateStepAt_some ht with ⟨hkn, hk⟩ | ⟨hkn, u, hu, hcase⟩
      · have hcount := h.1 k t hk
        have hne : t.id ≠ s.id := fun hid => hkn (h.2 k n t s hk hsteps hid)
        rw [openCount_updateFirstOpen_other hne]
        exact hcount
      · subst hkn
        have hus : u = s := by
          rw [hsteps] at hu
          injection hu with h1
          exact h1.symm
        subst hus
        rcases hcase with ⟨_, htf⟩ | ⟨hnp, _⟩
        · subst htf
          have h0 := h.1 k u hsteps
          rw [hstat] at h0
          simp only [if_true] at h0
          rw [openCount_updateFirstOpen_self]
          dsimp only
          rw [h0]
          split <;> simp
        · exact absurd hpid hnp
    · intro k l s1 t1 hk hl hid
      dsimp only at hk hl
      obtain ⟨u1, hu1, hid1⟩ := updateStepAt_some_id hk (fun q => rfl)
      obtain ⟨u2, hu2, hid2⟩ := updateStepAt_some_id hl (fun q => rfl)
      exact h.2 k l u1 u2 hu1 hu2 (by rw [← hid1, ← hid2, hid])

theorem inv_accept {st : DBState} (pid n score : Int) (h : Inv st) :
    Inv (accept_step st pid n score).2 := by
  rcases accept_step_state st pid n score with he | ⟨s, hgs, hstat, he⟩
  · rw [he]; exact h
  · obtain ⟨hsteps, hpid⟩ := get_step_some hgs
    rw [he]
    constructor
    · intro k t ht
      dsimp only at ht ⊢
      rcases updateStepAt_some ht with ⟨_, hk⟩ | ⟨hkn, u, hu, hcase⟩
      · exact h.1 k t hk
      · subst hkn
        have hus : u = s := by
          rw [hsteps] at hu
          injection hu with h1
          exact h1.symm
        subst hus
        rcases hcase with ⟨_, htf⟩ | ⟨hnp, _⟩
        · subst htf
          have h0 := h.1 k u hsteps
          rcases hstat with h1 | h1 <;>
            rw [h1] at h0 <;>
            simp only [reduceCtorEq, if_false] at h0 <;>
            simpa using h0
        · exact absurd hpid hnp
    · intro k l s1 t1 hk hl hid
      dsimp only at hk hl
      obtain ⟨u1, hu1, hid1⟩ := updateStepAt_some_id hk (fun q => rfl)
      obtain ⟨u2, hu2, hid2⟩ := updateStepAt_some_id hl (fun q => rfl)
      exact h.2 k l u1 u2 hu1 hu2 (by rw [← hid1, ← hid2, hid])

theorem inv_reject {st : DBState} (pid n : Int) (timer : Option Int) (h : Inv st) :
    Inv (reject_step st pid n timer).2 := by
  rcases reject_step_state st pid n timer with he | ⟨s, t0, hgs, hstat, he⟩
  · rw [he]; exact h
  · obtain ⟨hsteps, hpid⟩ := get_step_some hgs
    rw [he]
    constructor
    · intro k t ht
      dsimp only at ht ⊢
      rcases updateStepAt_some ht with ⟨_, hk⟩ | ⟨hkn, u, hu, hcase⟩
      · exact h.1 k t hk
      · subst hkn
        have hus : u = s := by
          rw [hsteps] at hu
          injection hu with h1
          exact h1.symm
        subst hus
        rcases hcase with ⟨_, htf⟩ | ⟨hnp, _⟩
        · subst htf
          have h0 := h.1 k u hsteps
          rcases hstat with h1 | h1 <;>
            rw [h1] at h0 <;>
            simp only [reduceCtorEq, if_false] at h0 <;>
            simpa using h0
        · exact absurd hpid hnp
    · intro k l s1 t1 hk hl hid
      dsimp only at hk hl
      obtain ⟨u1, hu1, hid1⟩ := updateStepAt_some_id hk (fun q => rfl)
      obtain ⟨u2, hu2, hid2⟩ := updateStepAt_some_id hl (fun q => rfl)
      exact h.2 k l u1 u2 hu1 hu2 (by rw [← hid1, ← hid2, hid])

theorem inv_comment {st : DBState} (pid n : Int) (text : String) (fc : Nat)
    (user : User) (h : Inv st) : Inv (create_comment st pid n text fc user).2 := by
  rcases create_comment_state st pid n text fc user with he | ⟨c, he⟩
  · rw [he]; exact h
  · rw [he]; exact inv_unchanged h rfl rfl

theorem inv_init (pid : Int) (team : Option Team) : Inv (initState pid team) := by
  constructor
  · intro n s hn
    simp only [initState] at hn
    split at hn
    · cases hn
      simp [initState, initStep, openCount, List.countP_nil]
    · exact absurd hn (by simp)
  · intro n m s t hn hm hid
    simp only [initState] at hn hm
    split at hn
    · split at hm
      · cases hn
        cases hm
        simpa [initStep] using hid
      · exact absurd hm (by simp)
    · exact absurd hn (by simp)

theorem reachable_inv {st : DBState} (h : Reachable st) : Inv st := by
  induction h with
  | init pid team => exact inv_init pid team
  | next op _ ih =>
    cases op with
    | opStart pid n tid now => exact inv_start pid n tid now ih
    | opSetTimer pid n timer => exact inv_set_timer pid n timer ih
    | opSubmit pid n text af rm tid now fault =>
        exact inv_submit pid n text af rm tid now fault ih
    | opAccept pid n score => exact inv_accept pid n score ih
    | opReject pid n timer => exact inv_reject pid n timer ih
    | opCreateComment pid n text fc user => exact inv_comment pid n text fc user ih

theorem submit_step_ok {st : DBState} {pid n : Int} {text : String} {af : Nat}
    {rm : List Int} {tid now : Int} {fault : SubmitFault} {r : Step}
    (h : (submit_step st pid n text af rm tid now fault).1 = .ok r) :
    ∃ s a tm, get_step st pid n = some s ∧ st.project.team = some tm ∧ tid = tm.id ∧
      s.status = ProjectStatus.IN_PROGRESS ∧ get_open_attempt st s.id = some a ∧
      submit_step st pid n text af rm tid now fault =
        (.ok { s with
               text := some text,
               status := if a.end_time_at < now then ProjectStatus.TIME_EXCEEDED
                 else ProjectStatus.SUBMITTED },
         { st with
           steps := updateStepAt st.steps pid n
             (fun q =>
               { q with
                 text := some text,
                 status := if a.end_time_at < now then ProjectStatus.TIME_EXCEEDED
                   else ProjectStatus.SUBMITTED }),
           attempts := updateFirstOpen s.id now st.attempts,
           files := st.files.filter
               (fun f => !(f.step_id == s.id && rm.contains f.id)) ++
             (List.range af).map
               (fun i => { id := st.next_file_id + i, step_id := s.id }),
           next_file_id := st.next_file_id + af,
           project := { st.project with new_submission := true } }) := by
  unfold submit_step at h
  split at h
  · exact absurd h (by simp)
  next s hs =>
    split at h
    · exact absurd h (by simp)
    next tm htm =>
      split at h
      · exact absurd h (by simp)
      next hteam =>
        split at h
        · exact absurd h (by simp)
        next hstat =>
          split at h
          · exact absurd h (by simp)
          next a ha =>
            split at h
            · exact absurd h (by simp)
            next hrm =>
              split at h
              · exact absurd h (by simp)
              next hf1 =>
                split at h
                · exact absurd h (by simp)
                next hf2 =>
                  split at h
                  · exact absurd h (by simp)
                  next haf =>
                    refine ⟨s, a, tm, get_step_or_404_anon.mp hs, htm,
                      not_ne_iff.mp hteam, not_ne_iff.mp hstat, ha, ?_⟩
                    unfold submit_step
                    rw [hs]
                    dsimp only
                    rw [htm]
                    dsimp only
                    rw [if_neg hteam, if_neg hstat]
                    rw [ha]
                    dsimp only
                    rw [if_neg hrm, if_neg hf1, if_neg hf2, if_neg haf]

/-- Claim C7 is violated by the code: `accept_step` sets the step score
but never touches the aggregate project `score` column (documented in
src/projects/schemas.py as the sum of step scores), so on the reachable
trace create → start → submit → accept(score 5) the project score stays 0
while the step scores sum to 5. -/
theorem claim_C7_thm :
    Reachable stAcc5 ∧
    (accept_step stSub10 1 1 5).1 =
      .ok { id := 1, project_id := 1, step_number := 1, text := some "answer",
            score := 5, timer_minutes := some 30,
            status := ProjectStatus.ACCEPTED } ∧
    (stAcc5.steps 1).map Step.score = some 5 ∧
    stAcc5.project.score = 0 ∧
    stepScoresSum stAcc5 = 5 ∧
    stAcc5.project.score ≠ stepScoresSum stAcc5 := by
  have h0 : Reachable stInit := Reachable.init 1 (some teamA)
  have h1 : Reachable stStarted := Reachable.next (Op.opStart 1 1 7 0) h0
  have h2 : Reachable stSub10 :=
    Reachable.next (Op.opSubmit 1 1 "answer" 0 [] 7 10 SubmitFault.wNone) h1
  have h3 : Reachable stAcc5 := Reachable.next (Op.opAccept 1 1 5) h2
  exact ⟨h3, rfl, rfl, rfl, by decide, by decide⟩

/-- Claim C9: submitting a step of a project that has no team dereferences
`step.project.team.id` and dies with AttributeError, which is none of the
four HTTP error kinds, while `start_step` on the same state cleanly returns
404 `Team for this project is not found`. -/
theorem claim_C9_thm :
    (submit_step stNoTeam 1 1 "x" 0 [] 7 10 SubmitFault.wNone).1 =
      .error (.attributeError "NoneType object has no attribute id") ∧
    (∀ code detail, (submit_step stNoTeam 1 1 "x" 0 [] 7 10 SubmitFault.wNone).1 ≠
      .error (.http code detail)) ∧
    (start_step stNoTeam 1 1 7 10).1 =
      .error (.http 404 "Team for this project is not found") := by
  refine ⟨rfl, ?_, rfl⟩
  intro code detail hcontra
  rw [show (submit_step stNoTeam 1 1 "x" 0 [] 7 10 SubmitFault.wNone).1 =
      .error (.attributeError "NoneType object has no attribute id") from rfl] at hcontra
  simp at hcontra

/-- Claim C2 fails as stated: with end_time_at − submitted_at = 150 s the
code rounds 150/60 = 2.5 half-to-even (Python `round`) and durably writes
timer_minutes = 2, while rounding half away from zero as the claim states
would give 3. -/
theorem claim_C2_cex :
    get_last_submitted_attempt stSub150 1 =
      some { step_id := 1, started_at := 0, end_time_at := 1800,
             submitted_at := some 1650 } ∧
    ((reject_step stSub150 1 1 none).2.steps 1).map Step.timer_minutes =
      some (some 2) ∧
    max 1 (roundHalfAwayFromZero (1800 - 1650) 60) = 3 ∧
    (2 : Int) ≠ 3 :=
  ⟨rfl, rfl, by decide, by decide⟩

/-- Claim C3 fails as stated: on a step that is IN_PROGRESS with no open
attempt, `set_step_timer` returns the new value in the response but commits
nothing, so the durable timer_minutes is unchanged. -/
theorem claim_C3_cex :
    (set_step_timer stNoOpen 1 1 42).1 =
      .ok { id := 1, project_id := 1, step_number := 1, text := some "t",
            score := 0, timer_minutes := some 42,
            status := ProjectStatus.IN_PROGRESS } ∧
    (set_step_timer stNoOpen 1 1 42).2 = stNoOpen ∧
    ((set_step_timer stNoOpen 1 1 42).2.steps 1).map Step.timer_minutes =
      some (some 30) ∧
    some (some 30) ≠ some (some (42 : Int)) :=
  ⟨rfl, rfl, rfl, by decide⟩

/-- Claim C1 is violated by the code (code bug): rejecting a TIME_EXCEEDED
step with no timer does not raise Conflict; the else branch writes
`timer_minutes = None` and the flush in `update_step` violates the NOT NULL
column constraint, raising IntegrityError (an unhandled 500) with the
durable state unchanged. -/
theorem claim_C1_thm (st : DBState) (pid n : Int) (s : Step)
    (hs : get_step_or_404 st pid n none = .ok s)
    (hstat : s.status = ProjectStatus.TIME_EXCEEDED) :
    reject_step st pid n none = (.error PyErr.integrityError, st) ∧
    ∀ detail, (reject_step st pid n none).1 ≠ .error (.http 409 detail) := by
  have hcond : ¬(s.status ≠ ProjectStatus.SUBMITTED ∧
      s.status ≠ ProjectStatus.TIME_EXCEEDED) := by
    rw [hstat]; simp
  have hinf : ¬(timerFalsy none ∧ s.status = ProjectStatus.SUBMITTED) := by
    rw [hstat]; simp
  have hmain : reject_step st pid n none = (.error PyErr.integrityError, st) := by
    unfold reject_step
    rw [hs]
    dsimp only
    rw [if_neg hcond, if_neg hinf]
  refine ⟨hmain, fun detail hcontra => ?_⟩
  rw [hmain] at hcontra
  simp at hcontra

/-- Witness for claim C1 at the reachable late-submission state. -/
theorem claim_C1_witness :
    reject_step stLate 1 1 none = (.error PyErr.integrityError, stLate) :=
  (claim_C1_thm stLate 1 1
    { id := 1, project_id := 1, step_number := 1, text := some "late",
      score := 0, timer_minutes := some 30,
      status := ProjectStatus.TIME_EXCEEDED }
    rfl rfl).1

theorem get_step_or_404_anon_error {st : DBState} {pid n : Int} {e : PyErr}
    (h : get_step_or_404 st pid n none = .error e) :
    e = .http 404 "Step not found" := by
  unfold get_step_or_404 at h
  split at h
  · injection h with h1
    exact h1.symm
  · exact absurd h (by simp)

/-- Claim C2 (amended): rejecting a SUBMITTED step with no explicit timer
sets timer_minutes to max(1, round((E − S)/60)) where round is the Python
built-in rounding with ties to EVEN (not half away from zero); the result
is always at least 1 minute, and E − S = 90 s still yields 2 minutes. -/
theorem claim_C2_thm (st : DBState) (pid n : Int) (s : Step) (a : StepAttempt)
    (subAt : Int)
    (hs : get_step_or_404 st pid n none = .ok s)
    (hstat : s.status = ProjectStatus.SUBMITTED)
    (hlast : get_last_submitted_attempt st s.id = some a)
    (hsub : a.submitted_at = some subAt) :
    (reject_step st pid n none).1 =
      .ok { s with
            timer_minutes := some (max 1 (pythonRound (a.end_time_at - subAt) 60)),
            status := ProjectStatus.NOT_STARTED } ∧
    ((reject_step st pid n none).2.steps n).map Step.timer_minutes =
      some (some (max 1 (pythonRound (a.end_time_at - subAt) 60))) ∧
    1 ≤ max 1 (pythonRound (a.end_time_at - subAt) 60) := by
  obtain ⟨hsteps, hpid⟩ := get_step_some (get_step_or_404_anon.mp hs)
  have hc1 : ¬(s.status ≠ ProjectStatus.SUBMITTED ∧
      s.status ≠ ProjectStatus.TIME_EXCEEDED) := by
    rw [hstat]; simp
  have hc2 : timerFalsy none ∧ s.status = ProjectStatus.SUBMITTED :=
    ⟨rfl, hstat⟩
  have hpair : reject_step st pid n none =
      (.ok { s with
             timer_minutes := some (max 1 (pythonRound (a.end_time_at - subAt) 60)),
             status := ProjectStatus.NOT_STARTED },
       { st with
         steps := updateStepAt st.steps pid n
           (fun q => { q with
             timer_minutes := some (max 1 (pythonRound (a.end_time_at - subAt) 60)),
             status := ProjectStatus.NOT_STARTED }),
         project := { st.project with new_submission := false } }) := by
    unfold reject_step
    rw [hs]
    dsimp only
    rw [if_neg hc1, if_pos hc2, hlast]
    dsimp only
    rw [hsub]
  refine ⟨by rw [hpair], ?_, le_max_left _ _⟩
  rw [hpair]
  dsimp only
  rw [updateStepAt_self, hsteps]
  simp [hpid]

/-- Witness for claim C2: on the reachable state whose submitted attempt
has 90 seconds of unused time, reject with no timer durably writes 2. -/
theorem claim_C2_witness :
    ((reject_step stSub90 1 1 none).2.steps 1).map Step.timer_minutes =
      some (some 2) := by
  have h := (claim_C2_thm stSub90 1 1
    { id := 1, project_id := 1, step_number := 1, text := some "x",
      score := 0, timer_minutes := some 30, status := ProjectStatus.SUBMITTED }
    { step_id := 1, started_at := 0, end_time_at := 1800, submitted_at := some 1710 }
    1710 rfl rfl rfl rfl).2.1
  rw [h]
  decide

/-- Claim C3 (amended): set_timer durably updates timer_minutes when the
step is not IN_PROGRESS, and when IN_PROGRESS with an open attempt it also
recomputes the attempt field end_time_at = started_at + timer and commits; but
when IN_PROGRESS with no open attempt the method returns before any commit,
so no durable field changes (the response object still carries the new
value). -/
theorem claim_C3_thm (st : DBState) (pid n : Int) (s : Step) (t : Int)
    (hs : get_step_or_404 st pid n none = .ok s) :
    (s.status ≠ ProjectStatus.IN_PROGRESS →
      ((set_step_timer st pid n t).2.steps n).map Step.timer_minutes =
        some (some t) ∧
      (set_step_timer st pid n t).2.attempts = st.attempts) ∧
    (s.status = ProjectStatus.IN_PROGRESS →
      ∀ a, get_open_attempt st s.id = some a →
      ((set_step_timer st pid n t).2.steps n).map Step.timer_minutes =
        some (some t) ∧
      findOpen (set_step_timer st pid n t).2.attempts s.id =
        some { a with end_time_at := a.started_at + 60 * t }) ∧
    (s.status = ProjectStatus.IN_PROGRESS →
      get_open_attempt st s.id = none →
      (set_step_timer st pid n t).2 = st ∧
      (set_step_timer st pid n t).1 = .ok { s with timer_minutes := some t }) := by
  obtain ⟨hsteps, hpid⟩ := get_step_some (get_step_or_404_anon.mp hs)
  refine ⟨?_, ?_, ?_⟩
  · intro hns
    have hpair : (set_step_timer st pid n t) =
        (.ok { s with timer_minutes := some t },
         { st with
           steps := updateStepAt st.steps pid n
             (fun q => { q with timer_minutes := some t }) }) := by
      unfold set_step_timer
      rw [hs]
      dsimp only
      rw [if_neg hns]
    rw [hpair]
    dsimp only
    rw [updateStepAt_self, hsteps]
    simp [hpid]
  · intro hin a ha
    have hpair : (set_step_timer st pid n t) =
        (.ok { s with timer_minutes := some t },
         { st with
           steps := updateStepAt st.steps pid n
             (fun q => { q with timer_minutes := some t }),
           attempts := updateFirstOpenEnd s.id t st.attempts }) := by
      unfold set_step_timer
      rw [hs]
      dsimp only
      rw [if_pos hin, ha]
    rw [hpair]
    dsimp only
    constructor
    · rw [updateStepAt_self, hsteps]
      simp [hpid]
    · exact findOpen_updateFirstOpenEnd ha
  · intro hin hnone
    have hpair : (set_step_timer st pid n t) =
        (.ok { s with timer_minutes := some t }, st) := by
      unfold set_step_timer
      rw [hs]
      dsimp only
      rw [if_pos hin, hnone]
    rw [hpair]
    exact ⟨rfl, rfl⟩

/-- Witness for claim C3 on the reachable started state: setting the timer
to 45 minutes commits the timer and moves the open attempt deadline to
started_at + 45 minutes. -/
theorem claim_C3_witness :
    ((set_step_timer stStarted 1 1 45).2.steps 1).map Step.timer_minutes =
      some (some 45) ∧
    findOpen (set_step_timer stStarted 1 1 45).2.attempts 1 =
      some { step_id := 1, started_at := 0, end_time_at := 0 + 60 * 45,
             submitted_at := none } :=
  (claim_C3_thm stStarted 1 1
    { id := 1, project_id := 1, step_number := 1, text := none, score := 0,
      timer_minutes := some 30, status := ProjectStatus.IN_PROGRESS }
    45 rfl).2.1 rfl
    { step_id := 1, started_at := 0, end_time_at := 1800, submitted_at := none }
    rfl

/-- Claim C4: for N > 1, start fails with Conflict `previous step not
finished` (durable state unchanged) whenever step N−1 exists and is not
ACCEPTED; for N = 1 the previous-step validation passes and that Conflict
can never be the outcome. -/
theorem claim_C4_thm (st : DBState) (pid n tid now : Int) :
    (∀ p, 1 < n → get_step st pid (n - 1) = some p →
      p.status ≠ ProjectStatus.ACCEPTED →
      start_step st pid n tid now =
        (.error (.http 409 "Cannot start the new step until the previous step is finished"),
         st)) ∧
    (n = 1 →
      validate_previous_step_completed st pid n = .ok () ∧
      (start_step st pid n tid now).1 ≠
        .error (.http 409 "Cannot start the new step until the previous step is finished")) := by
  constructor
  · intro p hn hp hacc
    have hval : validate_previous_step_completed st pid n =
        .error (.http 409 "Cannot start the new step until the previous step is finished") := by
      unfold validate_previous_step_completed
      rw [if_neg (by omega : ¬ n ≤ 1), hp]
      dsimp only
      rw [if_pos hacc]
    unfold start_step
    rw [hval]
  · intro hn1
    subst hn1
    have hval : validate_previous_step_completed st pid 1 = .ok () := by
      unfold validate_previous_step_completed
      rw [if_pos (by omega : (1 : Int) ≤ 1)]
    refine ⟨hval, ?_⟩
    intro hcontra
    unfold start_step at hcontra
    rw [hval] at hcontra
    dsimp only at hcontra
    split at hcontra
    next e he =>
      rw [get_step_or_404_anon_error he] at hcontra
      simp at hcontra
    next s hs =>
      split at hcontra
      · simp at hcontra
      next tm htm =>
        split at hcontra
        · simp at hcontra
        · split at hcontra
          · simp at hcontra
          · split at hcontra
            · simp at hcontra
            next m hm =>
              split at hcontra
              next e2 he2 =>
                rw [get_step_or_404_anon_error he2] at hcontra
                simp at hcontra
              · simp at hcontra

/-- Witness for claim C4: starting step 2 of a fresh project fails with the
previous-step Conflict. -/
theorem claim_C4_witness :
    start_step stInit 1 2 7 0 =
      (.error (.http 409 "Cannot start the new step until the previous step is finished"),
       stInit) :=
  (claim_C4_thm stInit 1 2 7 0).1 (initStep 1 1) (by norm_num) rfl (by decide)

/-- Claim C8: an authorized create_comment on an existing step with at most
5 files fails with Conflict exactly when the step is NOT_STARTED; in every
other status the comment row is appended. -/
theorem claim_C8_thm (st : DBState) (pid n : Int) (text : String) (fc : Nat)
    (user : User) (s : Step)
    (hfc : fc ≤ 5)
    (hs : get_step_or_404 st pid n (some user) = .ok s) :
    (((create_comment st pid n text fc user).1 =
        .error (.http 409 "Step has not been started")) ↔
      s.status = ProjectStatus.NOT_STARTED) ∧
    (s.status ≠ ProjectStatus.NOT_STARTED →
      (create_comment st pid n text fc user).1 =
        .ok { step_id := s.id, user_id := user.id, text := text, num_files := fc } ∧
      (create_comment st pid n text fc user).2.comments =
        st.comments ++
          [{ step_id := s.id, user_id := user.id, text := text, num_files := fc }]) := by
  by_cases hns : s.status = ProjectStatus.NOT_STARTED
  · have hpair : create_comment st pid n text fc user =
        (.error (.http 409 "Step has not been started"), st) := by
      unfold create_comment
      rw [hs]
      dsimp only
      rw [if_pos hns]
    rw [hpair]
    exact ⟨⟨fun _ => hns, fun _ => rfl⟩, fun hcon => absurd hns hcon⟩
  · have hpair : create_comment st pid n text fc user =
        (.ok { step_id := s.id, user_id := user.id, text := text, num_files := fc },
         { st with comments := st.comments ++
             [{ step_id := s.id, user_id := user.id, text := text, num_files := fc }] }) := by
      unfold create_comment
      rw [hs]
      dsimp only
      rw [if_neg hns, if_neg (by omega : ¬ fc > 5)]
    rw [hpair]
    constructor
    · constructor
      · intro hcon
        exact absurd hcon (by simp)
      · intro hcon
        exact absurd hcon hns
    · exact fun _ => ⟨rfl, rfl⟩

/-- Witness for claim C8: a mentor comments on the started step. -/
theorem claim_C8_witness :
    (create_comment stStarted 1 1 "hi" 0 mentorU).1 =
      .ok { step_id := 1, user_id := 99, text := "hi", num_files := 0 } ∧
    (create_comment stStarted 1 1 "hi" 0 mentorU).2.comments =
      stStarted.comments ++
        [{ step_id := 1, user_id := 99, text := "hi", num_files := 0 }] :=
  (claim_C8_thm stStarted 1 1 "hi" 0 mentorU
    { id := 1, project_id := 1, step_number := 1, text := none, score := 0,
      timer_minutes := some 30, status := ProjectStatus.IN_PROGRESS }
    (by omega) rfl).2 (by decide)

/-- Claim C10: when an exception is raised inside the submit_step try block
before the upload call assigns files_to_create (here injected at the
update_step or file-deletion statement), the handler reads the unassigned
local and the call fails with UnboundLocalError, losing the original
exception. -/
theorem claim_C10_thm (st : DBState) (pid n : Int) (text : String) (af : Nat)
    (rm : List Int) (tid now : Int) (s : Step) (a : StepAttempt) (tm : Team)
    (fault : SubmitFault)
    (hs : get_step_or_404 st pid n none = .ok s)
    (htm : st.project.team = some tm)
    (htid : tid = tm.id)
    (hstat : s.status = ProjectStatus.IN_PROGRESS)
    (ha : get_open_attempt st s.id = some a)
    (hrm : rm.filter (fun fid =>
        !((st.files.filter (fun f => f.step_id == s.id)).any
          (fun f => f.id == fid))) = [])
    (hfault : fault = SubmitFault.atUpdateStep ∨
      (fault = SubmitFault.atDeleteFiles ∧ rm ≠ [])) :
    submit_step st pid n text af rm tid now fault =
      (.error (.unboundLocalError "files_to_create"), st) ∧
    ∀ tag, (submit_step st pid n text af rm tid now fault).1 ≠
      .error (.injected tag) := by
  have hrm2 : ¬(rm.filter (fun fid =>
      !((st.files.filter (fun f => f.step_id == s.id)).any
        (fun f => f.id == fid))) ≠ []) := by
    rw [hrm]
    simp
  have hmain : submit_step st pid n text af rm tid now fault =
      (.error (.unboundLocalError "files_to_create"), st) := by
    unfold submit_step
    rw [hs]
    dsimp only
    rw [htm]
    dsimp only
    rw [if_neg (by rw [htid]; simp : ¬ tid ≠ tm.id)]
    rw [if_neg (by rw [hstat]; simp : ¬ s.status ≠ ProjectStatus.IN_PROGRESS)]
    rw [ha]
    dsimp only
    rw [if_neg hrm2]
    rcases hfault with hf | ⟨hf, hne⟩
    · rw [if_pos hf]
    · rw [if_neg (by rw [hf]; simp : ¬ fault = SubmitFault.atUpdateStep)]
      rw [if_pos ⟨hf, hne⟩]
  refine ⟨hmain, fun tag hcontra => ?_⟩
  rw [hmain] at hcontra
  simp at hcontra

/-- Witness for claim C10: a database failure injected at the update_step
statement surfaces as UnboundLocalError. -/
theorem claim_C10_witness :
    submit_step stStarted 1 1 "x" 0 [] 7 10 SubmitFault.atUpdateStep =
      (.error (.unboundLocalError "files_to_create"), stStarted) :=
  (claim_C10_thm stStarted 1 1 "x" 0 [] 7 10
    { id := 1, project_id := 1, step_number := 1, text := none, score := 0,
      timer_minutes := some 30, status := ProjectStatus.IN_PROGRESS }
    { step_id := 1, started_at := 0, end_time_at := 1800, submitted_at := none }
    teamA SubmitFault.atUpdateStep
    rfl rfl rfl rfl rfl rfl (Or.inl rfl)).1

theorem steps_case_of_update {steps : Int → Option Step} {pid2 n2 : Int}
    {f : Step → Step} {n : Int} {s s2 : Step}
    (hn : steps n = some s)
    (h2 : updateStepAt steps pid2 n2 f n = some s2) :
    s2 = s ∨ (n = n2 ∧ s2 = f s) := by
  rcases updateStepAt_some h2 with ⟨_, hk⟩ | ⟨hkn, u, hu, hcase⟩
  · left
    rw [hn] at hk
    exact (Option.some.inj hk).symm
  · subst hkn
    have hus : u = s := by
      rw [hn] at hu
      exact (Option.some.inj hu).symm
    subst hus
    rcases hcase with ⟨_, ht⟩ | ⟨_, ht⟩
    · right; exact ⟨rfl, ht⟩
    · left; exact ht

/-- Claim C5: at every reachable state each step has at most one open
attempt; a successful start leaves the step IN_PROGRESS with exactly one
open attempt and a second start on the resulting state fails with Conflict
`Step is already started`; a successful submit stamps the field
submitted_at of the open attempt with now and leaves the step with zero
open attempts. -/
theorem claim_C5_thm :
    (∀ st, Reachable st → ∀ n s, st.steps n = some s →
      openCount st.attempts s.id ≤ 1) ∧
    (∀ st pid n tid now r, Reachable st →
      (start_step st pid n tid now).1 = .ok r →
      (∀ s2, (start_step st pid n tid now).2.steps n = some s2 →
        s2.status = ProjectStatus.IN_PROGRESS ∧
        openCount (start_step st pid n tid now).2.attempts s2.id = 1) ∧
      (∀ now2, start_step (start_step st pid n tid now).2 pid n tid now2 =
        (.error (.http 409 "Step is already started"),
         (start_step st pid n tid now).2))) ∧
    (∀ st pid n text af rm tid now r s a, Reachable st →
      get_step st pid n = some s → get_open_attempt st s.id = some a →
      (submit_step st pid n text af rm tid now SubmitFault.wNone).1 = .ok r →
      { a with submitted_at := some now } ∈
        (submit_step st pid n text af rm tid now SubmitFault.wNone).2.attempts ∧
      openCount (submit_step st pid n text af rm tid now SubmitFault.wNone).2.attempts
        s.id = 0) := by
  refine ⟨?_, ?_, ?_⟩
  · intro st hr n s hns
    have hinv := reachable_inv hr
    have h1 := hinv.1 n s hns
    rw [h1]
    split <;> omega
  · intro st pid n tid now r hr hok
    obtain ⟨hval, s, m, tm, hgs, htm, htid, hstat, htimer, hshape⟩ := start_step_ok hok
    obtain ⟨hsteps, hpid⟩ := get_step_some hgs
    have hr2 : Reachable (start_step st pid n tid now).2 :=
      Reachable.next (Op.opStart pid n tid now) hr
    have hinv2 := reachable_inv hr2
    have hsteps2 : (start_step st pid n tid now).2.steps n =
        some { s with status := ProjectStatus.IN_PROGRESS } := by
      rw [hshape]
      dsimp only
      rw [updateStepAt_self, hsteps]
      simp [hpid]
    constructor
    · intro s2 hs2
      rw [hsteps2] at hs2
      have hs2e : s2 = { s with status := ProjectStatus.IN_PROGRESS } :=
        (Option.some.inj hs2).symm
      subst hs2e
      refine ⟨rfl, ?_⟩
      have h1 := hinv2.1 n _ hsteps2
      simpa using h1
    · intro now2
      have hval2 : validate_previous_step_completed
          (start_step st pid n tid now).2 pid n = .ok () := by
        by_cases hn1 : n ≤ 1
        · unfold validate_previous_step_completed
          rw [if_pos hn1]
        · obtain ⟨p, hp, hacc⟩ := validate_ok_of_prev hval hn1
          have hneq : n - 1 ≠ n := by omega
          have hsame : (start_step st pid n tid now).2.steps (n - 1) =
              st.steps (n - 1) := by
            rw [hshape]
            dsimp only
            exact updateStepAt_other hneq
          have hget2 : get_step (start_step st pid n tid now).2 pid (n - 1) =
              some p := by
            unfold get_step at hp ⊢
            rw [hsame]
            exact hp
          unfold validate_previous_step_completed
          rw [if_neg hn1, hget2]
          dsimp only
          rw [if_neg (by rw [hacc]; simp : ¬ p.status ≠ ProjectStatus.ACCEPTED)]
      have hgs2 : get_step_or_404 (start_step st pid n tid now).2 pid n none =
          .ok { s with status := ProjectStatus.IN_PROGRESS } :=
        get_step_or_404_anon.mpr (get_step_of_steps hsteps2 hpid)
      rw [hshape] at hval2 hgs2 ⊢
      unfold start_step
      rw [hval2]
      dsimp only
      rw [hgs2]
      dsimp only
      rw [htm]
      dsimp only
      rw [if_neg (by rw [htid]; simp : ¬ tid ≠ tm.id)]
      rw [if_pos (by simp :
        ({ s with status := ProjectStatus.IN_PROGRESS } : Step).status ≠
          ProjectStatus.NOT_STARTED)]
  · intro st pid n text af rm tid now r s a hr hgs ha hok
    obtain ⟨s2, a2, tm, hgs2, htm2, htid2, hstat2, ha2, hpair⟩ := submit_step_ok hok
    have hss : s2 = s := by
      rw [hgs] at hgs2
      exact (Option.some.inj hgs2).symm
    rw [hss] at hpair hstat2 ha2
    have haa : a2 = a := by
      rw [ha] at ha2
      exact (Option.some.inj ha2).symm
    rw [haa] at hpair
    obtain ⟨hsteps, hpid⟩ := get_step_some hgs
    have hst2 : (submit_step st pid n text af rm tid now SubmitFault.wNone).2 =
        { st with
          steps := updateStepAt st.steps pid n
            (fun q =>
              { q with
                text := some text,
                status := if a.end_time_at < now then ProjectStatus.TIME_EXCEEDED
                  else ProjectStatus.SUBMITTED }),
          attempts := updateFirstOpen s.id now st.attempts,
          files := st.files.filter
              (fun f => !(f.step_id == s.id && rm.contains f.id)) ++
            (List.range af).map
              (fun i => { id := st.next_file_id + i, step_id := s.id }),
          next_file_id := st.next_file_id + af,
          project := { st.project with new_submission := true } } :=
      congrArg Prod.snd hpair
    constructor
    · rw [hst2]
      exact findOpen_mem_updateFirstOpen ha
    · rw [hst2]
      dsimp only
      rw [openCount_updateFirstOpen_self]
      have hinv := reachable_inv hr
      have h1 := hinv.1 n s hsteps
      rw [hstat2] at h1
      simp only [if_true] at h1
      rw [h1]

/-- Witness for claim C5 at the fresh project: step 1 has at most one open
attempt. -/
theorem claim_C5_witness :
    openCount stInit.attempts 1 ≤ 1 :=
  claim_C5_thm.1 stInit (Reachable.init 1 (some teamA)) 1 (initStep 1 1) rfl

/-- Claim C6: a successful submit at time now stamps submitted_at = now on
the open attempt and sets the step status to TIME_EXCEEDED exactly when
now is strictly past the attempt deadline end_time_at, SUBMITTED otherwise; and no
operation ever moves a step between SUBMITTED and TIME_EXCEEDED afterwards,
so the choice made at submission time is never re-evaluated. -/
theorem claim_C6_thm :
    (∀ st pid n text af rm tid now r s a,
      get_step st pid n = some s → get_open_attempt st s.id = some a →
      (submit_step st pid n text af rm tid now SubmitFault.wNone).1 = .ok r →
      ((submit_step st pid n text af rm tid now SubmitFault.wNone).2.steps n).map
          Step.status =
        some (if a.end_time_at < now then ProjectStatus.TIME_EXCEEDED
          else ProjectStatus.SUBMITTED) ∧
      r.status = (if a.end_time_at < now then ProjectStatus.TIME_EXCEEDED
          else ProjectStatus.SUBMITTED) ∧
      { a with submitted_at := some now } ∈
        (submit_step st pid n text af rm tid now SubmitFault.wNone).2.attempts) ∧
    (∀ st op n s s2, st.steps n = some s → (applyOp st op).steps n = some s2 →
      (s.status = ProjectStatus.SUBMITTED →
        s2.status ≠ ProjectStatus.TIME_EXCEEDED) ∧
      (s.status = ProjectStatus.TIME_EXCEEDED →
        s2.status ≠ ProjectStatus.SUBMITTED)) := by
  constructor
  · intro st pid n text af rm tid now r s a hgs ha hok
    obtain ⟨s2, a2, tm, hgs2, htm2, htid2, hstat2, ha2, hpair⟩ := submit_step_ok hok
    have hss : s2 = s := by
      rw [hgs] at hgs2
      exact (Option.some.inj hgs2).symm
    rw [hss] at hpair hstat2 ha2
    have haa : a2 = a := by
      rw [ha] at ha2
      exact (Option.some.inj ha2).symm
    rw [haa] at hpair
    obtain ⟨hsteps, hpid⟩ := get_step_some hgs
    have hst2 := congrArg Prod.snd hpair
    have hfst := congrArg Prod.fst hpair
    refine ⟨?_, ?_, ?_⟩
    · rw [hst2]
      dsimp only
      rw [updateStepAt_self, hsteps]
      simp [hpid]
    · rw [hok] at hfst
      have := Option.some.inj (by simpa using hfst)
      rw [this]
    · rw [hst2]
      exact findOpen_mem_updateFirstOpen ha
  · intro st op n s s2 hn h2
    have handle_same : s2 = s →
        (s.status = ProjectStatus.SUBMITTED →
          s2.status ≠ ProjectStatus.TIME_EXCEEDED) ∧
        (s.status = ProjectStatus.TIME_EXCEEDED →
          s2.status ≠ ProjectStatus.SUBMITTED) := by
      rintro rfl
      constructor <;> intro hh <;> rw [hh] <;> decide
    cases op with
    | opStart pid2 n2 tid2 now2 =>
      dsimp only [applyOp] at h2
      rcases start_step_state st pid2 n2 tid2 now2 with he | ⟨u, m, _, _, _, he⟩
      · rw [he] at h2
        rw [hn] at h2
        exact handle_same (Option.some.inj h2).symm
      · rw [he] at h2
        dsimp only at h2
        rcases steps_case_of_update hn h2 with hcase | ⟨_, hcase⟩
        · exact handle_same hcase
        · subst hcase
          constructor <;> intro _ <;> simp
    | opSetTimer pid2 n2 t2 =>
      dsimp only [applyOp] at h2
      rcases set_step_timer_state st pid2 n2 t2 with he | ⟨u, _, he | he⟩ <;>
        rw [he] at h2
      · rw [hn] at h2
        exact handle_same (Option.some.inj h2).symm
      all_goals {
        dsimp only at h2
        rcases steps_case_of_update hn h2 with hcase | ⟨_, hcase⟩
        · exact handle_same hcase
        · subst hcase
          constructor <;> intro hh <;> simp <;> rw [hh] <;> decide
      }
    | opSubmit pid2 n2 text2 af2 rm2 tid2 now2 fault2 =>
      dsimp only [applyOp] at h2
      rcases submit_step_state st pid2 n2 text2 af2 rm2 tid2 now2 fault2 with
        he | ⟨u, a2, hgs2, hstat2, _, he⟩
      · rw [he] at h2
        rw [hn] at h2
        exact handle_same (Option.some.inj h2).symm
      · rw [he] at h2
        dsimp only at h2
        rcases steps_case_of_update hn h2 with hcase | ⟨hnn, hcase⟩
        · exact handle_same hcase
        · subst hnn
          subst hcase
          obtain ⟨hsteps2, _⟩ := get_step_some hgs2
          have hus : u = s := by
            rw [hn] at hsteps2
            exact (Option.some.inj hsteps2).symm
          subst hus
          constructor <;> intro hh <;> rw [hstat2] at hh <;> exact absurd hh (by decide)
    | opAccept pid2 n2 score2 =>
      dsimp only [applyOp] at h2
      rcases accept_step_state st pid2 n2 score2 with he | ⟨u, _, _, he⟩ <;>
        rw [he] at h2
      · rw [hn] at h2
        exact handle_same (Option.some.inj h2).symm
      · dsimp only at h2
        rcases steps_case_of_update hn h2 with hcase | ⟨_, hcase⟩
        · exact handle_same hcase
        · subst hcase
          constructor <;> intro _ <;> simp
    | opReject pid2 n2 timer2 =>
      dsimp only [applyOp] at h2
      rcases reject_step_state st pid2 n2 timer2 with he | ⟨u, t2, _, _, he⟩ <;>
        rw [he] at h2
      · rw [hn] at h2
        exact handle_same (Option.some.inj h2).symm
      · dsimp only at h2
        rcases steps_case_of_update hn h2 with hcase | ⟨_, hcase⟩
        · exact handle_same hcase
        · subst hcase
          constructor <;> intro _ <;> simp
    | opCreateComment pid2 n2 text2 fc2 user2 =>
      dsimp only [applyOp] at h2
      rcases create_comment_state st pid2 n2 text2 fc2 user2 with he | ⟨c, he⟩ <;>
        rw [he] at h2
      · rw [hn] at h2
        exact handle_same (Option.some.inj h2).symm
      · dsimp only at h2
        rw [hn] at h2
        exact handle_same (Option.some.inj h2).symm

/-- Witness for claim C6: submitting the started step at t = 10, before the
deadline 1800, yields status SUBMITTED. -/
theorem claim_C6_witness :
    ((submit_step stStarted 1 1 "answer" 0 [] 7 10 SubmitFault.wNone).2.steps 1).map
      Step.status = some ProjectStatus.SUBMITTED := by
  have h := (claim_C6_thm.1 stStarted 1 1 "answer" 0 [] 7 10
    { id := 1, project_id := 1, step_number := 1, text := some "answer",
      score := 0, timer_minutes := some 30, status := ProjectStatus.SUBMITTED }
    { id := 1, project_id := 1, step_number := 1, text := none, score := 0,
      timer_minutes := some 30, status := ProjectStatus.IN_PROGRESS }
    { step_id := 1, started_at := 0, end_time_at := 1800, submitted_at := none }
    rfl rfl rfl).1
  rw [if_neg (by norm_num : ¬ (1800 : Int) < 10)] at h
  exact h

end HackathonStepFlow
